import Mathlib

/-
Verification of the quant scoring engine of the ai-portfolio-analyst
repository, a shallow embedding of src/lib/quantModel.ts.

Numbers are modelled as rationals: every snapshot field that is present is
a finite number (the data-model invariant of the spec), and all arithmetic
of the engine on finite inputs is exact rational arithmetic here.  A second
model (namespace JS, further below) additionally represents the three
non-finite JavaScript doubles NaN, Infinity and -Infinity, for the claims
about non-finite inputs.  Math.log10, being transcendental, is modelled as
an uninterpreted function parameter of the risk scorer; no claim depends on
its values.
-/

set_option linter.unusedVariables false

/-- Input record of the engine (the MarketSnapshot type of
lib/fetchYahooRapid.ts, field list as constructed in
app/api/analyze-stock/route.ts).  Every numeric field is optional; the
numeric type is a parameter so that the same record shape serves the
rational model (α = ℚ) and the JavaScript-double model (α = JSNum). -/
structure MarketSnapshot (α : Type) where
  ticker : String
  companyName : Option String
  price : Option α
  prevClose : Option α
  dayHigh : Option α
  dayLow : Option α
  fiftyTwoWeekHigh : Option α
  fiftyTwoWeekLow : Option α
  volume : Option α
  avgVolume3m : Option α
  change1dPct : Option α
  changeFrom52wLowPct : Option α
  changeFrom52wHighPct : Option α
  fiftyTwoWeekChangePct : Option α
  marketCap : Option α
  peRatio : Option α
  pegRatio : Option α
  priceToSales : Option α
  priceToBook : Option α
  profitMargin : Option α
  roe : Option α
  revenueGrowth : Option α
  epsGrowth : Option α
  beta : Option α
deriving DecidableEq

/-- The three-way rating of quantModel.ts. -/
inductive Rating where
  | BUY
  | HOLD
  | SELL
deriving DecidableEq

/-- Output record of the engine (the MarketAnalysis type of
lib/quantModel.ts), parameterised by the numeric type like the input. -/
structure MarketAnalysis (α : Type) where
  rating : Rating
  conviction : α
  toneScore : α
  growthScore : α
  profitabilityScore : α
  valuationScore : α
  balanceScore : α
  healthScore : α
  summary : String
  keyRisks : List String
  thesis : String
deriving DecidableEq

/-- Replace the peRatio field of a snapshot, leaving every other field
unchanged (used to state the claims that compare a snapshot against the
same snapshot with one field absent). -/
def MarketSnapshot.setPeRatio {α : Type} (s : MarketSnapshot α)
    (x : Option α) : MarketSnapshot α :=
  ⟨s.ticker, s.companyName, s.price, s.prevClose, s.dayHigh, s.dayLow,
   s.fiftyTwoWeekHigh, s.fiftyTwoWeekLow, s.volume, s.avgVolume3m,
   s.change1dPct, s.changeFrom52wLowPct, s.changeFrom52wHighPct,
   s.fiftyTwoWeekChangePct, s.marketCap, x, s.pegRatio, s.priceToSales,
   s.priceToBook, s.profitMargin, s.roe, s.revenueGrowth, s.epsGrowth,
   s.beta⟩

/-- Replace the priceToSales field of a snapshot, leaving every other
field unchanged. -/
def MarketSnapshot.setPriceToSales {α : Type} (s : MarketSnapshot α)
    (x : Option α) : MarketSnapshot α :=
  ⟨s.ticker, s.companyName, s.price, s.prevClose, s.dayHigh, s.dayLow,
   s.fiftyTwoWeekHigh, s.fiftyTwoWeekLow, s.volume, s.avgVolume3m,
   s.change1dPct, s.changeFrom52wLowPct, s.changeFrom52wHighPct,
   s.fiftyTwoWeekChangePct, s.marketCap, s.peRatio, s.pegRatio, x,
   s.priceToBook, s.profitMargin, s.roe, s.revenueGrowth, s.epsGrowth,
   s.beta⟩

/-- The string printed for a rating inside the thesis template. -/
def Rating.toStr : Rating → String
  | .BUY => "BUY"
  | .HOLD => "HOLD"
  | .SELL => "SELL"

/-- First caveat string of quantModel.ts (pushed when margin or ROE is
missing). -/
def riskProfitability : String :=
  "Profitability metrics (margin/ROE) are partially missing or estimated – interpret profitability-related scores with some caution."

/-- Second caveat string of quantModel.ts (pushed when revenue growth or
EPS growth is missing). -/
def riskGrowthData : String :=
  "Growth fundamentals are incomplete, so the growth score leans more heavily on price-based momentum and position in the 52-week range."

/-- Generic caveat string of quantModel.ts (pushed only when the list is
still empty after the two data-completeness checks). -/
def riskTrailing : String :=
  "Scores are based on trailing data and do not incorporate forward guidance, breaking news, or macro shocks."

namespace Quant

/-- JavaScript Math.round on a finite value: round half toward positive
infinity, that is the floor of x + 1/2. -/
def mathRound (q : ℚ) : ℚ := ((⌊q + 1/2⌋ : ℤ) : ℚ)

/-- clamp of quantModel.ts: Math.min(max, Math.max(min, v)). -/
def clamp (v mn mx : ℚ) : ℚ := min mx (max mn v)

/-- safeNum of quantModel.ts.  In the rational model a present value is
always a finite number, so the finiteness test of the source is the
identity here; the JavaScript-double version (JS.safeNum below) performs
the real test. -/
def safeNum (n : Option ℚ) : Option ℚ := n

/-- avgScores of quantModel.ts: average of the non-null scores, rounded;
50 if none.  (The source also filters NaN; NaN does not exist in the
rational model, and the JS model filters it.) -/
def avgScores (scores : List (Option ℚ)) : ℚ :=
  if scores.filterMap id = [] then 50
  else mathRound ((scores.filterMap id).sum / ((scores.filterMap id).length : ℚ))

/-- avgScoresOrNull of quantModel.ts: like avgScores but null when every
input is null. -/
def avgScoresOrNull (scores : List (Option ℚ)) : Option ℚ :=
  if scores.filterMap id = [] then none
  else some (mathRound ((scores.filterMap id).sum / ((scores.filterMap id).length : ℚ)))

/-- Shared body of scoreFromBand and scoreFromBandOrNull on a present
value: saturate at the band edges, interpolate linearly inside. -/
def bandVal (v mn mx : ℚ) : ℚ :=
  if v ≤ mn then 10
  else if mx ≤ v then 95
  else 10 + (v - mn) / (mx - mn) * (95 - 10)

/-- scoreFromBand of quantModel.ts: null maps to the neutral 50. -/
def scoreFromBand (value : Option ℚ) (mn mx : ℚ) : ℚ :=
  match value with
  | none => 50
  | some v => bandVal v mn mx

/-- scoreFromBandOrNull of quantModel.ts: null stays null. -/
def scoreFromBandOrNull (value : Option ℚ) (mn mx : ℚ) : Option ℚ :=
  match value with
  | none => none
  | some v => some (bandVal v mn mx)

/-- Body of scoreFromPeOrNull of quantModel.ts on a present finite P/E. -/
def peCurve (pe : ℚ) : ℚ :=
  if pe ≤ 0 then 20
  else if 5 ≤ pe ∧ pe ≤ 15 then mathRound (95 - (pe - 5) / 10 * 15)
  else if 15 < pe ∧ pe ≤ 30 then mathRound (80 - (pe - 15) / 15 * 25)
  else if 30 < pe ∧ pe ≤ 60 then mathRound (55 - (pe - 30) / 30 * 15)
  else 35

/-- scoreFromPeOrNull of quantModel.ts: coerce through safeNum, null stays
null, otherwise apply the piecewise P/E curve. -/
def scoreFromPeOrNull (peRaw : Option ℚ) : Option ℚ :=
  match safeNum peRaw with
  | none => none
  | some pe => some (peCurve pe)

/-- scoreValue of quantModel.ts. -/
def scoreValue (s : MarketSnapshot ℚ) : ℚ :=
  let peScore := scoreFromPeOrNull s.peRatio
  let psScore := scoreFromBandOrNull s.priceToSales 1 12
  let pbScore := scoreFromBandOrNull s.priceToBook (8/10) 6
  let pegScore := scoreFromBandOrNull s.pegRatio (5/10) 3
  avgScores [peScore, psScore, pbScore, pegScore]

/-- Stage A of scoreGrowth of quantModel.ts: fundamental growth, null
only when both revenue growth and EPS growth are null. -/
def fundamentalGrowthScore (s : MarketSnapshot ℚ) : Option ℚ :=
  let revFundScore := scoreFromBandOrNull s.revenueGrowth 0 (35/100)
  let epsFundScore := scoreFromBandOrNull s.epsGrowth 0 (45/100)
  avgScoresOrNull [revFundScore, epsFundScore]

/-- Stage B of scoreGrowth of quantModel.ts: price-based growth, with the
52-week-range fallback when the 52-week change is null. -/
def priceGrowthScore (s : MarketSnapshot ℚ) : Option ℚ :=
  match s.fiftyTwoWeekChangePct with
  | some c => scoreFromBandOrNull (some c) (-40) 150
  | none =>
    match s.price, s.fiftyTwoWeekLow, s.fiftyTwoWeekHigh with
    | some p, some lo, some hi =>
      if lo < hi then scoreFromBandOrNull (some ((p - lo) / (hi - lo))) 0 1
      else none
    | _, _, _ => none

/-- scoreGrowth of quantModel.ts: average the fundamental stage with the
price stage when the fundamental stage is present, otherwise average the
price stage alone. -/
def scoreGrowth (s : MarketSnapshot ℚ) : ℚ :=
  avgScores
    (match fundamentalGrowthScore s with
     | some f => [some f, priceGrowthScore s]
     | none => [priceGrowthScore s])

/-- scoreQuality of quantModel.ts. -/
def scoreQuality (s : MarketSnapshot ℚ) : ℚ :=
  let marginScore := scoreFromBandOrNull s.profitMargin (5/100) (35/100)
  let roeScore := scoreFromBandOrNull s.roe (8/100) (35/100)
  avgScores [marginScore, roeScore]

/-- scoreMomentum of quantModel.ts. -/
def scoreMomentum (s : MarketSnapshot ℚ) : ℚ :=
  let dayScore := scoreFromBandOrNull s.change1dPct (-5) 5
  let yearScore := scoreFromBandOrNull s.fiftyTwoWeekChangePct (-40) 150
  let distFromHighScore :=
    scoreFromBandOrNull (s.changeFrom52wHighPct.map (fun c => -|c|)) (-60) 0
  avgScores [dayScore, yearScore, distFromHighScore]

/-- scoreRisk of quantModel.ts.  Math.log10 is passed in as an
uninterpreted function qlog (it is transcendental, hence not exactly
representable over ℚ); the guard mirrors the source truthiness test
`s.marketCap && s.marketCap > 0`, which over present rationals is just
positivity. -/
def scoreRisk (qlog : ℚ → ℚ) (s : MarketSnapshot ℚ) : ℚ :=
  let betaScore := scoreFromBandOrNull s.beta (8/10) (18/10)
  let sizeScore : Option ℚ :=
    match s.marketCap with
    | some mc =>
      if 0 < mc then scoreFromBandOrNull (some (qlog mc)) 9 12 else none
    | none => none
  avgScores [betaScore, sizeScore]

/-- Rating decision block of computeQuantAnalysis (quantModel.ts lines
228-233), first match wins. -/
def ratingOf (healthScore balanceScore : ℚ) : Rating :=
  if 72 ≤ healthScore ∧ 60 ≤ balanceScore then .BUY
  else if healthScore ≤ 40 ∨ balanceScore ≤ 40 then .SELL
  else .HOLD

/-- JavaScript number-to-string as it occurs in the narrative templates:
every score interpolated there is integer-valued, and a JavaScript double
holding an integer prints exactly like the integer. -/
def qToString (q : ℚ) : String :=
  if q.den = 1 then toString q.num else toString q

/-- computeQuantAnalysis of quantModel.ts. -/
def computeQuantAnalysis (qlog : ℚ → ℚ) (snapshot : MarketSnapshot ℚ) :
    MarketAnalysis ℚ :=
  let valueScore := scoreValue snapshot
  let growthScore := scoreGrowth snapshot
  let qualityScore := scoreQuality snapshot
  let momentumScore := scoreMomentum snapshot
  let riskScore := scoreRisk qlog snapshot
  let toneScore := momentumScore
  let valuationScore := valueScore
  let profitabilityScore := qualityScore
  let balanceScore := mathRound
    (valueScore * (25/100) + qualityScore * (25/100) +
     growthScore * (25/100) + riskScore * (15/100) +
     momentumScore * (10/100))
  let healthScore := mathRound
    (valueScore * (20/100) + qualityScore * (25/100) +
     growthScore * (30/100) + momentumScore * (15/100) +
     riskScore * (10/100))
  let rating := ratingOf healthScore balanceScore
  let distanceFromNeutral := |healthScore - 50|
  let conviction := clamp (35 + distanceFromNeutral) 10 90
  let name := snapshot.companyName.getD snapshot.ticker
  let summary :=
    "Quantitative snapshot for " ++ name ++ " (" ++ snapshot.ticker ++
    ") using valuation (P/E, PEG, P/S, P/B), growth (fundamental & price-based), profitability (margin & ROE), momentum, and basic risk proxies."
  let thesis :=
    "The composite health score of " ++ qToString healthScore ++
    " blends " ++ qToString growthScore ++ " for growth, " ++
    qToString profitabilityScore ++ " for profitability, " ++
    qToString valuationScore ++ " for valuation, and " ++
    qToString riskScore ++
    " for risk characteristics. This currently supports a " ++
    rating.toStr ++ " stance with about " ++ qToString conviction ++
    "% conviction given the available data."
  let keyRisksA :=
    if snapshot.profitMargin = none ∨ snapshot.roe = none
    then [riskProfitability] else []
  let keyRisksB := keyRisksA ++
    (if snapshot.revenueGrowth = none ∨ snapshot.epsGrowth = none
     then [riskGrowthData] else [])
  let keyRisks := if keyRisksB = [] then [riskTrailing] else keyRisksB
  ⟨rating, conviction, toneScore, growthScore, profitabilityScore,
   valuationScore, balanceScore, healthScore, summary, keyRisks, thesis⟩

end Quant

/-- A JavaScript double at the level of detail the engine observes: a
finite value (modelled exactly as a rational), NaN, Infinity or
-Infinity.  The sign of zero and the rounding of float arithmetic are not
modelled; no claim depends on them. -/
inductive JSNum where
  | num (q : ℚ)
  | nan
  | inf
  | ninf
deriving DecidableEq

namespace JSNum

/-- JavaScript unary minus. -/
def neg : JSNum → JSNum
  | num q => num (-q)
  | nan => nan
  | inf => ninf
  | ninf => inf

/-- JavaScript Math.abs. -/
def abs : JSNum → JSNum
  | num q => num |q|
  | nan => nan
  | inf => inf
  | ninf => inf

/-- JavaScript addition. -/
def add : JSNum → JSNum → JSNum
  | nan, _ => nan
  | _, nan => nan
  | inf, ninf => nan
  | ninf, inf => nan
  | inf, _ => inf
  | _, inf => inf
  | ninf, _ => ninf
  | _, ninf => ninf
  | num a, num b => num (a + b)

/-- JavaScript subtraction. -/
def sub (a b : JSNum) : JSNum := add a (neg b)

/-- JavaScript multiplication (zero times an infinity is NaN). -/
def mul : JSNum → JSNum → JSNum
  | nan, _ => nan
  | _, nan => nan
  | inf, inf => inf
  | inf, ninf => ninf
  | ninf, inf => ninf
  | ninf, ninf => inf
  | inf, num b => if b = 0 then nan else if 0 < b then inf else ninf
  | num a, inf => if a = 0 then nan else if 0 < a then inf else ninf
  | ninf, num b => if b = 0 then nan else if 0 < b then ninf else inf
  | num a, ninf => if a = 0 then nan else if 0 < a then ninf else inf
  | num a, num b => num (a * b)

/-- JavaScript division (an infinity over an infinity is NaN, a finite
value over an infinity is zero, division by zero gives a signed infinity
or NaN; negative zero is not modelled, so the zero divisor is treated as
positive zero). -/
def div : JSNum → JSNum → JSNum
  | nan, _ => nan
  | _, nan => nan
  | inf, inf => nan
  | inf, ninf => nan
  | ninf, inf => nan
  | ninf, ninf => nan
  | inf, num b => if b < 0 then ninf else inf
  | ninf, num b => if b < 0 then inf else ninf
  | num _, inf => num 0
  | num _, ninf => num 0
  | num a, num b =>
    if b = 0 then (if a = 0 then nan else if 0 < a then inf else ninf)
    else num (a / b)

/-- JavaScript comparison a <= b (false whenever either side is NaN). -/
def le : JSNum → JSNum → Bool
  | nan, _ => false
  | _, nan => false
  | ninf, _ => true
  | _, ninf => false
  | _, inf => true
  | inf, _ => false
  | num a, num b => a ≤ b

/-- JavaScript comparison a < b (false whenever either side is NaN). -/
def lt : JSNum → JSNum → Bool
  | nan, _ => false
  | _, nan => false
  | _, ninf => false
  | ninf, _ => true
  | inf, _ => false
  | _, inf => true
  | num a, num b => a < b

/-- JavaScript Math.round (NaN and the infinities pass through). -/
def round : JSNum → JSNum
  | num q => num ((⌊q + 1/2⌋ : ℤ) : ℚ)
  | nan => nan
  | inf => inf
  | ninf => ninf

/-- JavaScript Math.max of two numbers (NaN if either is NaN). -/
def jmax (a b : JSNum) : JSNum :=
  if a = nan ∨ b = nan then nan else if le a b then b else a

/-- JavaScript Math.min of two numbers (NaN if either is NaN). -/
def jmin (a b : JSNum) : JSNum :=
  if a = nan ∨ b = nan then nan else if le a b then a else b

/-- JavaScript truthiness of a possibly-null number: null, NaN and zero
are falsy, every other number (the infinities included) is truthy. -/
def truthy : Option JSNum → Bool
  | none => false
  | some nan => false
  | some (num q) => q ≠ 0
  | some _ => true

/-- JavaScript number-to-string as used in the narrative templates; the
scores that reach the templates are integer-valued, and decimal
formatting of non-integral doubles is not modelled exactly. -/
def toStr : JSNum → String
  | num q => if q.den = 1 then toString q.num else toString q
  | nan => "NaN"
  | inf => "Infinity"
  | ninf => "-Infinity"

end JSNum

namespace JS

open JSNum

/-- clamp of quantModel.ts over JavaScript doubles. -/
def clamp (v mn mx : JSNum) : JSNum := jmin mx (jmax mn v)

/-- safeNum of quantModel.ts: a value survives only if it is a finite
number. -/
def safeNum : Option JSNum → Option JSNum
  | some (num q) => some (num q)
  | _ => none

/-- avgScores of quantModel.ts over JavaScript doubles: the filter keeps
every non-null number that is not NaN (an infinity would be kept, exactly
as in the source). -/
def avgScores (scores : List (Option JSNum)) : JSNum :=
  let vals := (scores.filterMap id).filter (fun x => x ≠ nan)
  if vals = [] then num 50
  else round (div (vals.foldl add (num 0)) (num (vals.length : ℚ)))

/-- avgScoresOrNull of quantModel.ts over JavaScript doubles. -/
def avgScoresOrNull (scores : List (Option JSNum)) : Option JSNum :=
  let vals := (scores.filterMap id).filter (fun x => x ≠ nan)
  if vals = [] then none
  else some (round (div (vals.foldl add (num 0)) (num (vals.length : ℚ))))

/-- scoreFromBand of quantModel.ts over JavaScript doubles. -/
def scoreFromBand (value : Option JSNum) (mn mx : JSNum) : JSNum :=
  match value with
  | none => num 50
  | some v =>
    if le v mn then num 10
    else if le mx v then num 95
    else add (num 10) (mul (div (sub v mn) (sub mx mn)) (num 85))

/-- scoreFromBandOrNull of quantModel.ts over JavaScript doubles (NaN in
feeds NaN out, which the averaging then filters; an infinity saturates to
an edge score exactly as in the source). -/
def scoreFromBandOrNull (value : Option JSNum) (mn mx : JSNum) :
    Option JSNum :=
  match value with
  | none => none
  | some v =>
    some (if le v mn then num 10
          else if le mx v then num 95
          else add (num 10) (mul (div (sub v mn) (sub mx mn)) (num 85)))

/-- scoreFromPeOrNull of quantModel.ts over JavaScript doubles: safeNum
leaves only finite values, on which the curve is the exact rational
piecewise curve. -/
def scoreFromPeOrNull (peRaw : Option JSNum) : Option JSNum :=
  match safeNum peRaw with
  | some (num pe) => some (num (Quant.peCurve pe))
  | _ => none

/-- scoreValue of quantModel.ts over JavaScript doubles. -/
def scoreValue (s : MarketSnapshot JSNum) : JSNum :=
  let peScore := scoreFromPeOrNull s.peRatio
  let psScore := scoreFromBandOrNull s.priceToSales (num 1) (num 12)
  let pbScore := scoreFromBandOrNull s.priceToBook (num (8/10)) (num 6)
  let pegScore := scoreFromBandOrNull s.pegRatio (num (5/10)) (num 3)
  avgScores [peScore, psScore, pbScore, pegScore]

/-- scoreGrowth of quantModel.ts over JavaScript doubles.  Note that the
source guard on the 52-week change is a null test, so a NaN there selects
the banded branch and suppresses the range fallback. -/
def scoreGrowth (s : MarketSnapshot JSNum) : JSNum :=
  let revFundScore := scoreFromBandOrNull s.revenueGrowth (num 0) (num (35/100))
  let epsFundScore := scoreFromBandOrNull s.epsGrowth (num 0) (num (45/100))
  let fundamentalGrowthScore := avgScoresOrNull [revFundScore, epsFundScore]
  let priceGrowthScore : Option JSNum :=
    match s.fiftyTwoWeekChangePct with
    | some c => scoreFromBandOrNull (some c) (num (-40)) (num 150)
    | none =>
      match s.price, s.fiftyTwoWeekLow, s.fiftyTwoWeekHigh with
      | some p, some lo, some hi =>
        if lt lo hi
        then scoreFromBandOrNull (some (div (sub p lo) (sub hi lo)))
               (num 0) (num 1)
        else none
      | _, _, _ => none
  avgScores
    (match fundamentalGrowthScore with
     | some f => [some f, priceGrowthScore]
     | none => [priceGrowthScore])

/-- scoreQuality of quantModel.ts over JavaScript doubles. -/
def scoreQuality (s : MarketSnapshot JSNum) : JSNum :=
  let marginScore := scoreFromBandOrNull s.profitMargin (num (5/100)) (num (35/100))
  let roeScore := scoreFromBandOrNull s.roe (num (8/100)) (num (35/100))
  avgScores [marginScore, roeScore]

/-- scoreMomentum of quantModel.ts over JavaScript doubles. -/
def scoreMomentum (s : MarketSnapshot JSNum) : JSNum :=
  let dayScore := scoreFromBandOrNull s.change1dPct (num (-5)) (num 5)
  let yearScore := scoreFromBandOrNull s.fiftyTwoWeekChangePct (num (-40)) (num 150)
  let distFromHighScore :=
    scoreFromBandOrNull (s.changeFrom52wHighPct.map (fun c => neg (abs c)))
      (num (-60)) (num 0)
  avgScores [dayScore, yearScore, distFromHighScore]

/-- scoreRisk of quantModel.ts over JavaScript doubles; Math.log10 is the
uninterpreted parameter jlog.  The guard mirrors the source truthiness
test followed by the strict comparison with zero. -/
def scoreRisk (jlog : JSNum → JSNum) (s : MarketSnapshot JSNum) : JSNum :=
  let betaScore := scoreFromBandOrNull s.beta (num (8/10)) (num (18/10))
  let sizeScore : Option JSNum :=
    match s.marketCap with
    | some mc =>
      if truthy (some mc) ∧ lt (num 0) mc
      then scoreFromBandOrNull (some (jlog mc)) (num 9) (num 12)
      else none
    | none => none
  avgScores [betaScore, sizeScore]

/-- computeQuantAnalysis of quantModel.ts over JavaScript doubles. -/
def computeQuantAnalysis (jlog : JSNum → JSNum)
    (snapshot : MarketSnapshot JSNum) : MarketAnalysis JSNum :=
  let valueScore := scoreValue snapshot
  let growthScore := scoreGrowth snapshot
  let qualityScore := scoreQuality snapshot
  let momentumScore := scoreMomentum snapshot
  let riskScore := scoreRisk jlog snapshot
  let toneScore := momentumScore
  let valuationScore := valueScore
  let profitabilityScore := qualityScore
  let balanceScore := round
    (add (add (add (add (mul valueScore (num (25/100)))
      (mul qualityScore (num (25/100))))
      (mul growthScore (num (25/100))))
      (mul riskScore (num (15/100))))
      (mul momentumScore (num (10/100))))
  let healthScore := round
    (add (add (add (add (mul valueScore (num (20/100)))
      (mul qualityScore (num (25/100))))
      (mul growthScore (num (30/100))))
      (mul momentumScore (num (15/100))))
      (mul riskScore (num (10/100))))
  let rating :=
    if le (num 72) healthScore ∧ le (num 60) balanceScore then Rating.BUY
    else if le healthScore (num 40) ∨ le balanceScore (num 40) then Rating.SELL
    else Rating.HOLD
  let distanceFromNeutral := abs (sub healthScore (num 50))
  let conviction := clamp (add (num 35) distanceFromNeutral) (num 10) (num 90)
  let name := snapshot.companyName.getD snapshot.ticker
  let summary :=
    "Quantitative snapshot for " ++ name ++ " (" ++ snapshot.ticker ++
    ") using valuation (P/E, PEG, P/S, P/B), growth (fundamental & price-based), profitability (margin & ROE), momentum, and basic risk proxies."
  let thesis :=
    "The composite health score of " ++ toStr healthScore ++
    " blends " ++ toStr growthScore ++ " for growth, " ++
    toStr profitabilityScore ++ " for profitability, " ++
    toStr valuationScore ++ " for valuation, and " ++
    toStr riskScore ++
    " for risk characteristics. This currently supports a " ++
    rating.toStr ++ " stance with about " ++ toStr conviction ++
    "% conviction given the available data."
  let keyRisksA :=
    if snapshot.profitMargin = none ∨ snapshot.roe = none
    then [riskProfitability] else []
  let keyRisksB := keyRisksA ++
    (if snapshot.revenueGrowth = none ∨ snapshot.epsGrowth = none
     then [riskGrowthData] else [])
  let keyRisks := if keyRisksB = [] then [riskTrailing] else keyRisksB
  ⟨rating, conviction, toneScore, growthScore, profitabilityScore,
   valuationScore, balanceScore, healthScore, summary, keyRisks, thesis⟩

end JS

/-- A concrete snapshot with every optional field absent (the entirely
null snapshot of the spec). -/
def snapNone : MarketSnapshot ℚ :=
  ⟨"TST", none, none, none, none, none, none, none, none, none, none,
   none, none, none, none, none, none, none, none, none, none, none,
   none, none⟩

/-- An arbitrary concrete stand-in for Math.log10 in the rational model
(never reached on the snapshots it is used with, whose market cap is
absent). -/
def qlogZero : ℚ → ℚ := fun _ => 0

/-- An arbitrary concrete stand-in for Math.log10 in the JS model (never
reached on the snapshots it is used with). -/
def jlogNan : JSNum → JSNum := fun _ => JSNum.nan

/-- The entirely null snapshot over JavaScript doubles. -/
def jsnapNone : MarketSnapshot JSNum :=
  ⟨"TST", none, none, none, none, none, none, none, none, none, none,
   none, none, none, none, none, none, none, none, none, none, none,
   none, none⟩

/-- The entirely null snapshot except that priceToSales holds the
non-finite double Infinity (it differs from jsnapNone in that one field
only). -/
def jsnapInf : MarketSnapshot JSNum :=
  ⟨"TST", none, none, none, none, none, none, none, none, none, none,
   none, none, none, none, none, none, some JSNum.inf, none, none, none,
   none, none, none⟩

/- ------------------------------------------------------------------
Helper lemmas about the numeric utilities.
------------------------------------------------------------------ -/

namespace Quant

theorem mathRound_bounds (lo hi : ℤ) (q : ℚ) (h1 : (lo : ℚ) ≤ q)
    (h2 : q ≤ (hi : ℚ)) :
    (lo : ℚ) ≤ mathRound q ∧ mathRound q ≤ (hi : ℚ) := by
  unfold mathRound
  constructor
  · exact_mod_cast Int.le_floor.mpr (by linarith)
  · have h3 : ⌊q + 1/2⌋ ≤ ⌊(1/2 : ℚ) + (hi : ℚ)⌋ :=
      Int.floor_le_floor (by linarith)
    rw [Int.floor_add_int] at h3
    have h4 : ⌊(1/2 : ℚ)⌋ = 0 := by norm_num
    rw [h4, zero_add] at h3
    exact_mod_cast h3

theorem mathRound_mono {q r : ℚ} (h : q ≤ r) : mathRound q ≤ mathRound r := by
  unfold mathRound
  exact_mod_cast Int.floor_le_floor (by linarith)

theorem mathRound_intCast (z : ℤ) : mathRound (z : ℚ) = (z : ℚ) := by
  unfold mathRound
  rw [add_comm, Int.floor_add_int]
  norm_num

theorem clamp_bounds (v : ℚ) : 10 ≤ clamp v 10 90 ∧ clamp v 10 90 ≤ 90 :=
  ⟨le_min (by norm_num) (le_max_left _ _), min_le_left _ _⟩

theorem bandVal_bounds {mn mx : ℚ} (h : mn < mx) (v : ℚ) :
    10 ≤ bandVal v mn mx ∧ bandVal v mn mx ≤ 95 := by
  unfold bandVal
  split_ifs with h1 h2
  · norm_num
  · norm_num
  · push_neg at h1 h2
    have ht0 : 0 ≤ (v - mn) / (mx - mn) := div_nonneg (by linarith) (by linarith)
    have ht1 : (v - mn) / (mx - mn) < 1 := (div_lt_one (by linarith)).mpr (by linarith)
    constructor <;> nlinarith

theorem bandVal_mono {mn mx : ℚ} (h : mn < mx) {x y : ℚ} (hxy : x ≤ y) :
    bandVal x mn mx ≤ bandVal y mn mx := by
  rcases le_or_lt x mn with hx | hx
  · rw [show bandVal x mn mx = 10 from by unfold bandVal; rw [if_pos hx]]
    exact (bandVal_bounds h y).1
  rcases le_or_lt mx x with hx2 | hx2
  · have hy2 : mx ≤ y := le_trans hx2 hxy
    have e1 : bandVal x mn mx = 95 := by
      unfold bandVal
      rw [if_neg (by linarith), if_pos hx2]
    have e2 : bandVal y mn mx = 95 := by
      unfold bandVal
      rw [if_neg (by linarith), if_pos hy2]
    rw [e1, e2]
  rcases le_or_lt mx y with hy2 | hy2
  · rw [show bandVal y mn mx = 95 from by
      unfold bandVal; rw [if_neg (by linarith), if_pos hy2]]
    exact (bandVal_bounds h x).2
  · unfold bandVal
    rw [if_neg (by linarith), if_neg (by linarith),
        if_neg (by linarith), if_neg (by linarith)]
    have hd : (0:ℚ) < mx - mn := by linarith
    have : (x - mn) / (mx - mn) ≤ (y - mn) / (mx - mn) := by
      gcongr
    linarith

theorem scoreFromBandOrNull_eq_some {mn mx : ℚ} (h : mn < mx)
    {o : Option ℚ} {q : ℚ} (he : scoreFromBandOrNull o mn mx = some q) :
    10 ≤ q ∧ q ≤ 95 := by
  cases o with
  | none => exact absurd he (by simp [scoreFromBandOrNull])
  | some v =>
    have hq : q = bandVal v mn mx := by
      have := he
      simp [scoreFromBandOrNull] at this
      exact this.symm
    rw [hq]
    exact bandVal_bounds h v

theorem peCurve_eq_seg1 {pe : ℚ} (h1 : 5 ≤ pe) (h2 : pe ≤ 15) :
    peCurve pe = mathRound (95 - (pe - 5) / 10 * 15) := by
  unfold peCurve
  rw [if_neg (by linarith), if_pos ⟨h1, h2⟩]

theorem peCurve_eq_seg2 {pe : ℚ} (h1 : 15 < pe) (h2 : pe ≤ 30) :
    peCurve pe = mathRound (80 - (pe - 15) / 15 * 25) := by
  unfold peCurve
  rw [if_neg (by linarith), if_neg (by rintro ⟨-, h⟩; linarith),
      if_pos ⟨h1, h2⟩]

theorem peCurve_eq_seg3 {pe : ℚ} (h1 : 30 < pe) (h2 : pe ≤ 60) :
    peCurve pe = mathRound (55 - (pe - 30) / 30 * 15) := by
  unfold peCurve
  rw [if_neg (by linarith), if_neg (by rintro ⟨-, h⟩; linarith),
      if_neg (by rintro ⟨-, h⟩; linarith), if_pos ⟨h1, h2⟩]

theorem peCurve_eq_seg4 {pe : ℚ} (h1 : 60 < pe) :
    peCurve pe = 35 := by
  unfold peCurve
  rw [if_neg (by linarith), if_neg (by rintro ⟨-, h⟩; linarith),
      if_neg (by rintro ⟨-, h⟩; linarith), if_neg (by rintro ⟨-, h⟩; linarith)]

theorem peSeg1_bounds {pe : ℚ} (h1 : 5 ≤ pe) (h2 : pe ≤ 15) :
    80 ≤ peCurve pe ∧ peCurve pe ≤ 95 := by
  rw [peCurve_eq_seg1 h1 h2]
  exact_mod_cast mathRound_bounds 80 95 _ (by linarith) (by linarith)

theorem peSeg2_bounds {pe : ℚ} (h1 : 15 < pe) (h2 : pe ≤ 30) :
    55 ≤ peCurve pe ∧ peCurve pe ≤ 80 := by
  rw [peCurve_eq_seg2 h1 h2]
  exact_mod_cast mathRound_bounds 55 80 _ (by linarith) (by linarith)

theorem peSeg3_bounds {pe : ℚ} (h1 : 30 < pe) (h2 : pe ≤ 60) :
    40 ≤ peCurve pe ∧ peCurve pe ≤ 55 := by
  rw [peCurve_eq_seg3 h1 h2]
  exact_mod_cast mathRound_bounds 40 55 _ (by linarith) (by linarith)

theorem peCurve_bounds (pe : ℚ) : 10 ≤ peCurve pe ∧ peCurve pe ≤ 95 := by
  rcases le_or_lt pe 0 with h0 | h0
  · rw [show peCurve pe = 20 from by unfold peCurve; rw [if_pos h0]]
    norm_num
  rcases lt_or_le pe 5 with h5 | h5
  · rw [show peCurve pe = 35 from by
      unfold peCurve
      rw [if_neg (by linarith), if_neg (by rintro ⟨h, -⟩; linarith),
          if_neg (by rintro ⟨h, -⟩; linarith), if_neg (by rintro ⟨h, -⟩; linarith)]]
    norm_num
  rcases le_or_lt pe 15 with h15 | h15
  · have := peSeg1_bounds h5 h15
    constructor <;> linarith [this.1, this.2]
  rcases le_or_lt pe 30 with h30 | h30
  · have := peSeg2_bounds h15 h30
    constructor <;> linarith [this.1, this.2]
  rcases le_or_lt pe 60 with h60 | h60
  · have := peSeg3_bounds h30 h60
    constructor <;> linarith [this.1, this.2]
  · rw [peCurve_eq_seg4 h60]
    norm_num

theorem peCurve_antitone {x y : ℚ} (hx : 5 < x) (hxy : x ≤ y) :
    peCurve y ≤ peCurve x := by
  rcases le_or_lt y 15 with h15 | h15
  · rw [peCurve_eq_seg1 hx.le (by linarith), peCurve_eq_seg1 (by linarith) h15]
    exact mathRound_mono (by linarith)
  rcases le_or_lt y 30 with h30 | h30
  · rcases le_or_lt x 15 with hx15 | hx15
    · have hby := peSeg2_bounds h15 h30
      have hbx := peSeg1_bounds hx.le hx15
      linarith [hby.2, hbx.1]
    · rw [peCurve_eq_seg2 hx15 (by linarith), peCurve_eq_seg2 h15 h30]
      exact mathRound_mono (by linarith)
  rcases le_or_lt y 60 with h60 | h60
  · rcases le_or_lt x 15 with hx15 | hx15
    · have hby := peSeg3_bounds h30 h60
      have hbx := peSeg1_bounds hx.le hx15
      linarith [hby.2, hbx.1]
    rcases le_or_lt x 30 with hx30 | hx30
    · have hby := peSeg3_bounds h30 h60
      have hbx := peSeg2_bounds hx15 hx30
      linarith [hby.2, hbx.1]
    · rw [peCurve_eq_seg3 hx30 (by linarith), peCurve_eq_seg3 h30 h60]
      exact mathRound_mono (by linarith)
  · rw [peCurve_eq_seg4 h60]
    rcases le_or_lt x 15 with hx15 | hx15
    · linarith [(peSeg1_bounds hx.le hx15).1]
    rcases le_or_lt x 30 with hx30 | hx30
    · linarith [(peSeg2_bounds hx15 hx30).1]
    rcases le_or_lt x 60 with hx60 | hx60
    · linarith [(peSeg3_bounds hx30 hx60).1]
    · rw [peCurve_eq_seg4 hx60]

theorem scoreFromPeOrNull_eq_some {o : Option ℚ} {q : ℚ}
    (he : scoreFromPeOrNull o = some q) : 10 ≤ q ∧ q ≤ 95 := by
  cases o with
  | none => exact absurd he (by simp [scoreFromPeOrNull, safeNum])
  | some v =>
    have hq : q = peCurve v := by
      have := he
      simp [scoreFromPeOrNull, safeNum] at this
      exact this.symm
    rw [hq]
    exact peCurve_bounds v

end Quant

namespace Quant

theorem list_sum_bounds (a b : ℚ) (L : List ℚ)
    (h : ∀ q ∈ L, a ≤ q ∧ q ≤ b) :
    a * L.length ≤ L.sum ∧ L.sum ≤ b * L.length := by
  induction L with
  | nil => simp
  | cons x xs ih =>
    have hx := h x (by simp)
    have hxs := ih (fun q hq => h q (by simp [hq]))
    simp only [List.sum_cons, List.length_cons]
    push_cast
    constructor
    · nlinarith [hx.1, hxs.1]
    · nlinarith [hx.2, hxs.2]

theorem avg_val_bounds (L : List ℚ) (hne : L ≠ [])
    (h : ∀ q ∈ L, 10 ≤ q ∧ q ≤ 95) :
    10 ≤ L.sum / (L.length : ℚ) ∧ L.sum / (L.length : ℚ) ≤ 95 := by
  have hlen : 0 < (L.length : ℚ) := by
    have : 0 < L.length := List.length_pos.mpr hne
    exact_mod_cast this
  have hs := list_sum_bounds 10 95 L h
  constructor
  · rw [le_div_iff₀ hlen]
    linarith [hs.1]
  · rw [div_le_iff₀ hlen]
    linarith [hs.2]

theorem mem_filterMap_id {l : List (Option ℚ)} {q : ℚ}
    (hq : q ∈ l.filterMap id) : ∃ o ∈ l, o = some q := by
  rw [List.mem_filterMap] at hq
  obtain ⟨o, ho, hoq⟩ := hq
  exact ⟨o, ho, hoq⟩

theorem avgScores_bounds (l : List (Option ℚ))
    (h : ∀ o ∈ l, ∀ q : ℚ, o = some q → 10 ≤ q ∧ q ≤ 95) :
    10 ≤ avgScores l ∧ avgScores l ≤ 95 := by
  unfold avgScores
  split_ifs with hv
  · norm_num
  · have hb : ∀ q ∈ l.filterMap id, 10 ≤ q ∧ q ≤ 95 := by
      intro q hq
      obtain ⟨o, ho, hoq⟩ := mem_filterMap_id hq
      exact h o ho q hoq
    have := avg_val_bounds _ hv hb
    exact_mod_cast mathRound_bounds 10 95 _ (by exact_mod_cast this.1)
      (by exact_mod_cast this.2)

theorem avgScoresOrNull_eq_some {l : List (Option ℚ)} {q : ℚ}
    (h : ∀ o ∈ l, ∀ r : ℚ, o = some r → 10 ≤ r ∧ r ≤ 95)
    (he : avgScoresOrNull l = some q) :
    10 ≤ q ∧ q ≤ 95 := by
  unfold avgScoresOrNull at he
  split_ifs at he with hv
  have hq := (Option.some_inj.mp he).symm
  have hb : ∀ r ∈ l.filterMap id, 10 ≤ r ∧ r ≤ 95 := by
    intro r hr
    obtain ⟨o, ho, hoq⟩ := mem_filterMap_id hr
    exact h o ho r hoq
  have := avg_val_bounds _ hv hb
  rw [hq]
  exact_mod_cast mathRound_bounds 10 95 _ (by exact_mod_cast this.1)
    (by exact_mod_cast this.2)

theorem avgScoresOrNull_int {l : List (Option ℚ)} {q : ℚ}
    (he : avgScoresOrNull l = some q) : ∃ z : ℤ, q = (z : ℚ) := by
  unfold avgScoresOrNull at he
  split_ifs at he with hv
  exact ⟨_, (Option.some_inj.mp he).symm⟩

theorem avgScores_pair (f p : ℚ) :
    avgScores [some f, some p] = mathRound ((f + p) / 2) := by
  simp only [avgScores, List.filterMap_cons, id_eq, List.filterMap_nil]
  rw [if_neg (by simp)]
  norm_num

theorem avgScores_left_int (z : ℤ) :
    avgScores [some (z : ℚ), none] = (z : ℚ) := by
  simp only [avgScores, List.filterMap_cons, id_eq, List.filterMap_nil]
  rw [if_neg (by simp)]
  norm_num [mathRound_intCast]

theorem avgScores_single (p : ℚ) :
    avgScores [some p] = mathRound p := by
  simp only [avgScores, List.filterMap_cons, id_eq, List.filterMap_nil]
  rw [if_neg (by simp)]
  norm_num

theorem avgScores_none_single :
    avgScores ([none] : List (Option ℚ)) = 50 := by
  unfold avgScores
  norm_num

end Quant

namespace Quant

theorem scoreValue_bounds (s : MarketSnapshot ℚ) :
    10 ≤ scoreValue s ∧ scoreValue s ≤ 95 := by
  simp only [scoreValue]
  apply avgScores_bounds
  intro o ho q hq
  simp only [List.mem_cons, List.not_mem_nil, or_false] at ho
  rcases ho with rfl | rfl | rfl | rfl
  · exact scoreFromPeOrNull_eq_some hq
  · exact scoreFromBandOrNull_eq_some (by norm_num) hq
  · exact scoreFromBandOrNull_eq_some (by norm_num) hq
  · exact scoreFromBandOrNull_eq_some (by norm_num) hq

theorem fundamentalGrowthScore_eq_some {s : MarketSnapshot ℚ} {f : ℚ}
    (he : fundamentalGrowthScore s = some f) : 10 ≤ f ∧ f ≤ 95 := by
  simp only [fundamentalGrowthScore] at he
  apply avgScoresOrNull_eq_some _ he
  intro o ho r hr
  simp only [List.mem_cons, List.not_mem_nil, or_false] at ho
  rcases ho with rfl | rfl
  · exact scoreFromBandOrNull_eq_some (by norm_num) hr
  · exact scoreFromBandOrNull_eq_some (by norm_num) hr

theorem priceGrowthScore_eq_some {s : MarketSnapshot ℚ} {q : ℚ}
    (he : priceGrowthScore s = some q) : 10 ≤ q ∧ q ≤ 95 := by
  unfold priceGrowthScore at he
  rcases hc : s.fiftyTwoWeekChangePct with _ | c
  · rw [hc] at he
    rcases hp : s.price with _ | p <;> rw [hp] at he
    · exact absurd he (by simp)
    rcases hl : s.fiftyTwoWeekLow with _ | lo <;> rw [hl] at he
    · exact absurd he (by simp)
    rcases hh : s.fiftyTwoWeekHigh with _ | hi <;> rw [hh] at he
    · exact absurd he (by simp)
    dsimp only at he
    split_ifs at he with hlohi
    exact scoreFromBandOrNull_eq_some (by norm_num) he
  · rw [hc] at he
    exact scoreFromBandOrNull_eq_some (by norm_num) he

theorem scoreGrowth_bounds (s : MarketSnapshot ℚ) :
    10 ≤ scoreGrowth s ∧ scoreGrowth s ≤ 95 := by
  unfold scoreGrowth
  rcases hf : fundamentalGrowthScore s with _ | f
  · apply avgScores_bounds
    intro o ho q hq
    simp only [List.mem_cons, List.not_mem_nil, or_false] at ho
    rcases ho with rfl
    exact priceGrowthScore_eq_some hq
  · apply avgScores_bounds
    intro o ho q hq
    simp only [List.mem_cons, List.not_mem_nil, or_false] at ho
    rcases ho with rfl | rfl
    · have : f = q := Option.some_inj.mp hq
      rw [← this]
      exact fundamentalGrowthScore_eq_some hf
    · exact priceGrowthScore_eq_some hq

theorem scoreQuality_bounds (s : MarketSnapshot ℚ) :
    10 ≤ scoreQuality s ∧ scoreQuality s ≤ 95 := by
  simp only [scoreQuality]
  apply avgScores_bounds
  intro o ho q hq
  simp only [List.mem_cons, List.not_mem_nil, or_false] at ho
  rcases ho with rfl | rfl
  · exact scoreFromBandOrNull_eq_some (by norm_num) hq
  · exact scoreFromBandOrNull_eq_some (by norm_num) hq

theorem scoreMomentum_bounds (s : MarketSnapshot ℚ) :
    10 ≤ scoreMomentum s ∧ scoreMomentum s ≤ 95 := by
  simp only [scoreMomentum]
  apply avgScores_bounds
  intro o ho q hq
  simp only [List.mem_cons, List.not_mem_nil, or_false] at ho
  rcases ho with rfl | rfl | rfl
  · exact scoreFromBandOrNull_eq_some (by norm_num) hq
  · exact scoreFromBandOrNull_eq_some (by norm_num) hq
  · exact scoreFromBandOrNull_eq_some (by norm_num) hq

theorem scoreRisk_bounds (qlog : ℚ → ℚ) (s : MarketSnapshot ℚ) :
    10 ≤ scoreRisk qlog s ∧ scoreRisk qlog s ≤ 95 := by
  simp only [scoreRisk]
  apply avgScores_bounds
  intro o ho q hq
  simp only [List.mem_cons, List.not_mem_nil, or_false] at ho
  rcases ho with rfl | rfl
  · exact scoreFromBandOrNull_eq_some (by norm_num) hq
  · rcases hm : s.marketCap with _ | mc <;> rw [hm] at hq
    · exact absurd hq (by simp)
    · dsimp only at hq
      split_ifs at hq with hmc
      exact scoreFromBandOrNull_eq_some (by norm_num) hq

theorem cqa_toneScore (qlog : ℚ → ℚ) (s : MarketSnapshot ℚ) :
    (computeQuantAnalysis qlog s).toneScore = scoreMomentum s := rfl

theorem cqa_growthScore (qlog : ℚ → ℚ) (s : MarketSnapshot ℚ) :
    (computeQuantAnalysis qlog s).growthScore = scoreGrowth s := rfl

theorem cqa_profitabilityScore (qlog : ℚ → ℚ) (s : MarketSnapshot ℚ) :
    (computeQuantAnalysis qlog s).profitabilityScore = scoreQuality s := rfl

theorem cqa_valuationScore (qlog : ℚ → ℚ) (s : MarketSnapshot ℚ) :
    (computeQuantAnalysis qlog s).valuationScore = scoreValue s := rfl

theorem cqa_balanceScore (qlog : ℚ → ℚ) (s : MarketSnapshot ℚ) :
    (computeQuantAnalysis qlog s).balanceScore = mathRound
      (scoreValue s * (25/100) + scoreQuality s * (25/100) +
       scoreGrowth s * (25/100) + scoreRisk qlog s * (15/100) +
       scoreMomentum s * (10/100)) := rfl

theorem cqa_healthScore (qlog : ℚ → ℚ) (s : MarketSnapshot ℚ) :
    (computeQuantAnalysis qlog s).healthScore = mathRound
      (scoreValue s * (20/100) + scoreQuality s * (25/100) +
       scoreGrowth s * (30/100) + scoreMomentum s * (15/100) +
       scoreRisk qlog s * (10/100)) := rfl

theorem cqa_rating (qlog : ℚ → ℚ) (s : MarketSnapshot ℚ) :
    (computeQuantAnalysis qlog s).rating =
      ratingOf (computeQuantAnalysis qlog s).healthScore
        (computeQuantAnalysis qlog s).balanceScore := rfl

theorem cqa_conviction (qlog : ℚ → ℚ) (s : MarketSnapshot ℚ) :
    (computeQuantAnalysis qlog s).conviction =
      clamp (35 + |(computeQuantAnalysis qlog s).healthScore - 50|) 10 90 := rfl

theorem cqa_keyRisks (qlog : ℚ → ℚ) (s : MarketSnapshot ℚ) :
    (computeQuantAnalysis qlog s).keyRisks =
      (if (if s.profitMargin = none ∨ s.roe = none
           then [riskProfitability] else []) ++
          (if s.revenueGrowth = none ∨ s.epsGrowth = none
           then [riskGrowthData] else []) = []
       then [riskTrailing]
       else (if s.profitMargin = none ∨ s.roe = none
             then [riskProfitability] else []) ++
            (if s.revenueGrowth = none ∨ s.epsGrowth = none
             then [riskGrowthData] else [])) := rfl

end Quant

/- ------------------------------------------------------------------
Claim theorems.
------------------------------------------------------------------ -/

/-- C3: the P/E scoring function maps an absent input to absent, every
present input through the piecewise curve; the curve returns 20 for every
pe ≤ 0, exactly 95 at pe = 5, 80 at pe = 15, 55 at pe = 30, 40 at
pe = 60, 35 for every pe > 60, and is monotonic non-increasing in pe over
all pe > 5. -/
theorem c3_pe_curve_spec :
    Quant.scoreFromPeOrNull none = none ∧
    (∀ pe : ℚ, Quant.scoreFromPeOrNull (some pe) = some (Quant.peCurve pe)) ∧
    (∀ pe : ℚ, pe ≤ 0 → Quant.peCurve pe = 20) ∧
    Quant.peCurve 5 = 95 ∧
    Quant.peCurve 15 = 80 ∧
    Quant.peCurve 30 = 55 ∧
    Quant.peCurve 60 = 40 ∧
    (∀ pe : ℚ, 60 < pe → Quant.peCurve pe = 35) ∧
    (∀ x y : ℚ, 5 < x → x ≤ y → Quant.peCurve y ≤ Quant.peCurve x) := by
  refine ⟨rfl, fun pe => rfl, ?_, ?_, ?_, ?_, ?_, ?_, ?_⟩
  · intro pe h
    unfold Quant.peCurve
    rw [if_pos h]
  · norm_num [Quant.peCurve, Quant.mathRound]
  · norm_num [Quant.peCurve, Quant.mathRound]
  · norm_num [Quant.peCurve, Quant.mathRound]
  · norm_num [Quant.peCurve, Quant.mathRound]
  · exact fun pe h => Quant.peCurve_eq_seg4 h
  · exact fun x y hx hxy => Quant.peCurve_antitone hx hxy

/-- C3 witness: the universally quantified parts of the P/E claim at
concrete inputs. -/
theorem c3_pe_curve_spec_witness :
    Quant.peCurve (-3) = 20 ∧ Quant.peCurve 100 = 35 ∧
    Quant.peCurve 20 ≤ Quant.peCurve 10 ∧
    Quant.scoreFromPeOrNull (some 7) = some (Quant.peCurve 7) :=
  ⟨c3_pe_curve_spec.2.2.1 (-3) (by norm_num),
   c3_pe_curve_spec.2.2.2.2.2.2.2.1 100 (by norm_num),
   c3_pe_curve_spec.2.2.2.2.2.2.2.2 10 20 (by norm_num) (by norm_num),
   c3_pe_curve_spec.2.1 7⟩

/-- C7: for every band with min < max, scoreFromBand returns exactly 10 at
the minimum, 95 at the maximum, saturates below and above, is monotonic
non-decreasing on the band, and returns 50 on an absent input, while the
OrNull variant returns absent on an absent input and agrees with
scoreFromBand on present inputs. -/
theorem c7_band_spec (mn mx : ℚ) (h : mn < mx) :
    Quant.scoreFromBand none mn mx = 50 ∧
    Quant.scoreFromBandOrNull none mn mx = none ∧
    Quant.scoreFromBand (some mn) mn mx = 10 ∧
    Quant.scoreFromBand (some mx) mn mx = 95 ∧
    (∀ v : ℚ, v < mn → Quant.scoreFromBand (some v) mn mx = 10) ∧
    (∀ v : ℚ, mx < v → Quant.scoreFromBand (some v) mn mx = 95) ∧
    (∀ x y : ℚ, mn ≤ x → x ≤ y → y ≤ mx →
      Quant.scoreFromBand (some x) mn mx ≤ Quant.scoreFromBand (some y) mn mx) ∧
    (∀ v : ℚ, Quant.scoreFromBandOrNull (some v) mn mx =
      some (Quant.scoreFromBand (some v) mn mx)) := by
  refine ⟨rfl, rfl, ?_, ?_, ?_, ?_, ?_, fun v => rfl⟩
  · show Quant.bandVal mn mn mx = 10
    unfold Quant.bandVal
    rw [if_pos le_rfl]
  · show Quant.bandVal mx mn mx = 95
    unfold Quant.bandVal
    rw [if_neg (by linarith), if_pos le_rfl]
  · intro v hv
    show Quant.bandVal v mn mx = 10
    unfold Quant.bandVal
    rw [if_pos (le_of_lt hv)]
  · intro v hv
    show Quant.bandVal v mn mx = 95
    unfold Quant.bandVal
    rw [if_neg (by linarith), if_pos (le_of_lt hv)]
  · intro x y hx hxy hy
    exact Quant.bandVal_mono h hxy

/-- C7 witness: the band claim at the concrete band from 0 to 1. -/
theorem c7_band_spec_witness :
    Quant.scoreFromBand none 0 1 = 50 ∧
    Quant.scoreFromBand (some 0) 0 1 = 10 ∧
    Quant.scoreFromBand (some 1) 0 1 = 95 :=
  ⟨(c7_band_spec 0 1 (by norm_num)).1,
   (c7_band_spec 0 1 (by norm_num)).2.2.1,
   (c7_band_spec 0 1 (by norm_num)).2.2.2.1⟩

/-- C10: on present P/E inputs strictly between 0 and 5 the P/E scoring
function returns 35, the same value as the very-expensive branch, while
pe = 5 scores 95, so the curve is not monotonic non-increasing from 0
upward: it jumps up at pe = 5. -/
theorem c10_pe_gap_below_five :
    (∀ pe : ℚ, 0 < pe → pe < 5 → Quant.peCurve pe = 35) ∧
    Quant.peCurve 5 = 95 ∧
    (∀ pe : ℚ, Quant.scoreFromPeOrNull (some pe) = some (Quant.peCurve pe)) ∧
    (∃ x y : ℚ, 0 < x ∧ x < y ∧ Quant.peCurve x < Quant.peCurve y) := by
  have key : ∀ pe : ℚ, 0 < pe → pe < 5 → Quant.peCurve pe = 35 := by
    intro pe h0 h5
    unfold Quant.peCurve
    rw [if_neg (by linarith), if_neg (by rintro ⟨h, -⟩; linarith),
        if_neg (by rintro ⟨h, -⟩; linarith), if_neg (by rintro ⟨h, -⟩; linarith)]
  have at5 : Quant.peCurve 5 = 95 := by
    norm_num [Quant.peCurve, Quant.mathRound]
  exact ⟨key, at5, fun pe => rfl,
    ⟨4, 5, by norm_num, by norm_num,
     by rw [key 4 (by norm_num) (by norm_num), at5]; norm_num⟩⟩

/-- C10 witness: the gap claim at the concrete input pe = 3. -/
theorem c10_pe_gap_below_five_witness : Quant.peCurve 3 = 35 :=
  c10_pe_gap_below_five.1 3 (by norm_num) (by norm_num)

/-- C4: the rating is BUY exactly when health ≥ 72 and balance ≥ 60,
otherwise SELL exactly when health ≤ 40 or balance ≤ 40, otherwise HOLD;
with balance ≥ 60, health 72 gives BUY while health 71 gives HOLD; and the
engine rates with exactly this decision on its two composite scores. -/
theorem c4_rating_thresholds :
    (∀ h b : ℚ, Quant.ratingOf h b = Rating.BUY ↔ 72 ≤ h ∧ 60 ≤ b) ∧
    (∀ h b : ℚ, ¬(72 ≤ h ∧ 60 ≤ b) →
      (Quant.ratingOf h b = Rating.SELL ↔ h ≤ 40 ∨ b ≤ 40)) ∧
    (∀ h b : ℚ, ¬(72 ≤ h ∧ 60 ≤ b) → ¬(h ≤ 40 ∨ b ≤ 40) →
      Quant.ratingOf h b = Rating.HOLD) ∧
    (∀ b : ℚ, 60 ≤ b →
      Quant.ratingOf 72 b = Rating.BUY ∧ Quant.ratingOf 71 b = Rating.HOLD) ∧
    (∀ (qlog : ℚ → ℚ) (s : MarketSnapshot ℚ),
      (Quant.computeQuantAnalysis qlog s).rating =
        Quant.ratingOf (Quant.computeQuantAnalysis qlog s).healthScore
          (Quant.computeQuantAnalysis qlog s).balanceScore) := by
  refine ⟨?_, ?_, ?_, ?_, fun qlog s => Quant.cqa_rating qlog s⟩
  · intro h b
    unfold Quant.ratingOf
    split_ifs with h1 h2 <;> simp_all
  · intro h b hnb
    unfold Quant.ratingOf
    rw [if_neg hnb]
    split_ifs with h2 <;> simp_all
  · intro h b hnb hns
    unfold Quant.ratingOf
    rw [if_neg hnb, if_neg hns]
  · intro b hb
    constructor
    · unfold Quant.ratingOf
      rw [if_pos ⟨le_refl _, hb⟩]
    · unfold Quant.ratingOf
      rw [if_neg (by rintro ⟨h1, -⟩; linarith),
          if_neg (by rintro (h1 | h1) <;> linarith)]

/-- C4 witness: the rating thresholds at concrete composite scores. -/
theorem c4_rating_thresholds_witness :
    Quant.ratingOf 72 60 = Rating.BUY ∧ Quant.ratingOf 71 60 = Rating.HOLD ∧
    (Quant.ratingOf 30 50 = Rating.SELL ↔ (30 : ℚ) ≤ 40 ∨ (50 : ℚ) ≤ 40) :=
  ⟨(c4_rating_thresholds.2.2.2.1 60 (by norm_num)).1,
   (c4_rating_thresholds.2.2.2.1 60 (by norm_num)).2,
   c4_rating_thresholds.2.1 30 50 (by norm_num)⟩

/-- C5: for every snapshot the two composite scores are exactly the
fixed-weight rounded blends of the five factor scores, with weights
25/25/25/15/10 percent for balance and 20/25/30/15/10 percent for
health. -/
theorem c5_composite_weights (qlog : ℚ → ℚ) (s : MarketSnapshot ℚ) :
    (Quant.computeQuantAnalysis qlog s).balanceScore =
      Quant.mathRound
        ((25/100) * Quant.scoreValue s + (25/100) * Quant.scoreQuality s +
         (25/100) * Quant.scoreGrowth s + (15/100) * Quant.scoreRisk qlog s +
         (10/100) * Quant.scoreMomentum s) ∧
    (Quant.computeQuantAnalysis qlog s).healthScore =
      Quant.mathRound
        ((20/100) * Quant.scoreValue s + (25/100) * Quant.scoreQuality s +
         (30/100) * Quant.scoreGrowth s + (15/100) * Quant.scoreMomentum s +
         (10/100) * Quant.scoreRisk qlog s) := by
  rw [Quant.cqa_balanceScore, Quant.cqa_healthScore]
  constructor <;> · congr 1; ring

/-- C8: every one of the six returned scores lies in [0, 100] and the
returned conviction lies in [10, 90], for every snapshot. -/
theorem c8_score_ranges (qlog : ℚ → ℚ) (s : MarketSnapshot ℚ) :
    (0 ≤ (Quant.computeQuantAnalysis qlog s).toneScore ∧
      (Quant.computeQuantAnalysis qlog s).toneScore ≤ 100) ∧
    (0 ≤ (Quant.computeQuantAnalysis qlog s).growthScore ∧
      (Quant.computeQuantAnalysis qlog s).growthScore ≤ 100) ∧
    (0 ≤ (Quant.computeQuantAnalysis qlog s).profitabilityScore ∧
      (Quant.computeQuantAnalysis qlog s).profitabilityScore ≤ 100) ∧
    (0 ≤ (Quant.computeQuantAnalysis qlog s).valuationScore ∧
      (Quant.computeQuantAnalysis qlog s).valuationScore ≤ 100) ∧
    (0 ≤ (Quant.computeQuantAnalysis qlog s).balanceScore ∧
      (Quant.computeQuantAnalysis qlog s).balanceScore ≤ 100) ∧
    (0 ≤ (Quant.computeQuantAnalysis qlog s).healthScore ∧
      (Quant.computeQuantAnalysis qlog s).healthScore ≤ 100) ∧
    (10 ≤ (Quant.computeQuantAnalysis qlog s).conviction ∧
      (Quant.computeQuantAnalysis qlog s).conviction ≤ 90) := by
  have hv := Quant.scoreValue_bounds s
  have hq := Quant.scoreQuality_bounds s
  have hg := Quant.scoreGrowth_bounds s
  have hm := Quant.scoreMomentum_bounds s
  have hr := Quant.scoreRisk_bounds qlog s
  have hbal : 10 ≤ (Quant.computeQuantAnalysis qlog s).balanceScore ∧
      (Quant.computeQuantAnalysis qlog s).balanceScore ≤ 95 := by
    rw [Quant.cqa_balanceScore]
    have := Quant.mathRound_bounds 10 95
      (Quant.scoreValue s * (25/100) + Quant.scoreQuality s * (25/100) +
       Quant.scoreGrowth s * (25/100) + Quant.scoreRisk qlog s * (15/100) +
       Quant.scoreMomentum s * (10/100))
      (by push_cast; nlinarith [hv.1, hq.1, hg.1, hm.1, hr.1])
      (by push_cast; nlinarith [hv.2, hq.2, hg.2, hm.2, hr.2])
    constructor
    · exact_mod_cast this.1
    · exact_mod_cast this.2
  have hhea : 10 ≤ (Quant.computeQuantAnalysis qlog s).healthScore ∧
      (Quant.computeQuantAnalysis qlog s).healthScore ≤ 95 := by
    rw [Quant.cqa_healthScore]
    have := Quant.mathRound_bounds 10 95
      (Quant.scoreValue s * (20/100) + Quant.scoreQuality s * (25/100) +
       Quant.scoreGrowth s * (30/100) + Quant.scoreMomentum s * (15/100) +
       Quant.scoreRisk qlog s * (10/100))
      (by push_cast; nlinarith [hv.1, hq.1, hg.1, hm.1, hr.1])
      (by push_cast; nlinarith [hv.2, hq.2, hg.2, hm.2, hr.2])
    constructor
    · exact_mod_cast this.1
    · exact_mod_cast this.2
  refine ⟨?_, ?_, ?_, ?_, ?_, ?_, ?_⟩
  · rw [Quant.cqa_toneScore]
    constructor <;> linarith [hm.1, hm.2]
  · rw [Quant.cqa_growthScore]
    constructor <;> linarith [hg.1, hg.2]
  · rw [Quant.cqa_profitabilityScore]
    constructor <;> linarith [hq.1, hq.2]
  · rw [Quant.cqa_valuationScore]
    constructor <;> linarith [hv.1, hv.2]
  · constructor <;> linarith [hbal.1, hbal.2]
  · constructor <;> linarith [hhea.1, hhea.2]
  · rw [Quant.cqa_conviction]
    exact Quant.clamp_bounds _

/-- C9: the engine is a pure function of its snapshot: the same call
yields the same complete analysis, and equal snapshots yield equal
analyses, with no dependence on anything but the arguments. -/
theorem c9_deterministic (qlog : ℚ → ℚ) (s t : MarketSnapshot ℚ) :
    Quant.computeQuantAnalysis qlog s = Quant.computeQuantAnalysis qlog s ∧
    (s = t →
      Quant.computeQuantAnalysis qlog s = Quant.computeQuantAnalysis qlog t) :=
  ⟨rfl, fun h => h ▸ rfl⟩

/-- C9 witness: determinism at the concrete all-absent snapshot. -/
theorem c9_deterministic_witness :
    Quant.computeQuantAnalysis qlogZero snapNone =
      Quant.computeQuantAnalysis qlogZero snapNone :=
  (c9_deterministic qlogZero snapNone snapNone).2 rfl

/-- C6: the growth score follows the two-stage fallback: the fundamental
stage averages the banded revenue growth over [0, 0.35] and banded EPS
growth over [0, 0.45] and is absent only when both are absent; the price
stage bands the 52-week change over [-40, 150] when present, else the
position in the 52-week range over [0, 1] when price and both bounds are
present with high > low, else is absent; the returned score averages the
present stages and is 50 when both are absent. -/
theorem c6_growth_two_stage (s : MarketSnapshot ℚ) :
    (Quant.fundamentalGrowthScore s =
      Quant.avgScoresOrNull
        [Quant.scoreFromBandOrNull s.revenueGrowth 0 (35/100),
         Quant.scoreFromBandOrNull s.epsGrowth 0 (45/100)]) ∧
    (Quant.fundamentalGrowthScore s = none ↔
      s.revenueGrowth = none ∧ s.epsGrowth = none) ∧
    (∀ c : ℚ, s.fiftyTwoWeekChangePct = some c →
      Quant.priceGrowthScore s =
        Quant.scoreFromBandOrNull (some c) (-40) 150) ∧
    (∀ p lo hi : ℚ, s.fiftyTwoWeekChangePct = none → s.price = some p →
      s.fiftyTwoWeekLow = some lo → s.fiftyTwoWeekHigh = some hi → lo < hi →
      Quant.priceGrowthScore s =
        Quant.scoreFromBandOrNull (some ((p - lo) / (hi - lo))) 0 1) ∧
    (Quant.priceGrowthScore s = none ↔
      s.fiftyTwoWeekChangePct = none ∧
      ¬∃ p lo hi : ℚ, s.price = some p ∧ s.fiftyTwoWeekLow = some lo ∧
        s.fiftyTwoWeekHigh = some hi ∧ lo < hi) ∧
    (∀ f p : ℚ, Quant.fundamentalGrowthScore s = some f →
      Quant.priceGrowthScore s = some p →
      Quant.scoreGrowth s = Quant.mathRound ((f + p) / 2)) ∧
    (∀ f : ℚ, Quant.fundamentalGrowthScore s = some f →
      Quant.priceGrowthScore s = none → Quant.scoreGrowth s = f) ∧
    (∀ p : ℚ, Quant.fundamentalGrowthScore s = none →
      Quant.priceGrowthScore s = some p →
      Quant.scoreGrowth s = Quant.mathRound p) ∧
    (Quant.fundamentalGrowthScore s = none →
      Quant.priceGrowthScore s = none → Quant.scoreGrowth s = 50) := by
  refine ⟨rfl, ?_, ?_, ?_, ?_, ?_, ?_, ?_, ?_⟩
  · rcases hr : s.revenueGrowth with _ | r <;>
      rcases hep : s.epsGrowth with _ | e <;>
      simp [Quant.fundamentalGrowthScore, Quant.avgScoresOrNull,
        Quant.scoreFromBandOrNull, hr, hep]
  · intro c hc
    unfold Quant.priceGrowthScore
    rw [hc]
  · intro p lo hi h52 hp hl hh hlohi
    unfold Quant.priceGrowthScore
    rw [h52, hp, hl, hh]
    dsimp only
    rw [if_pos hlohi]
  · unfold Quant.priceGrowthScore
    rcases hc : s.fiftyTwoWeekChangePct with _ | c
    · rcases hp : s.price with _ | p <;>
        rcases hl : s.fiftyTwoWeekLow with _ | lo <;>
        rcases hh : s.fiftyTwoWeekHigh with _ | hi <;>
        simp [Quant.scoreFromBandOrNull]
    · simp [Quant.scoreFromBandOrNull]
  · intro f p hf hp
    unfold Quant.scoreGrowth
    rw [hf, hp]
    exact Quant.avgScores_pair f p
  · intro f hf hp
    unfold Quant.scoreGrowth
    rw [hf, hp]
    obtain ⟨z, hz⟩ := Quant.avgScoresOrNull_int hf
    rw [hz]
    exact Quant.avgScores_left_int z
  · intro p hf hp
    unfold Quant.scoreGrowth
    rw [hf, hp]
    exact Quant.avgScores_single p
  · intro hf hp
    unfold Quant.scoreGrowth
    rw [hf, hp]
    exact Quant.avgScores_none_single

/-- C6 witness: the growth fallback at the all-absent snapshot, where both
stages are absent and the growth score is the neutral 50. -/
theorem c6_growth_two_stage_witness : Quant.scoreGrowth snapNone = 50 :=
  (c6_growth_two_stage snapNone).2.2.2.2.2.2.2.2 rfl rfl

/-- C1 counterexample: for the concrete snapshot with every optional
numeric field absent, keyRisks is NOT a single generic caveat: it holds
exactly the two data-incompleteness caveats (profitability and growth),
neither of which is the generic trailing-data caveat, so it has length
two. -/
theorem c1_counterexample :
    (Quant.computeQuantAnalysis qlogZero snapNone).keyRisks =
      [riskProfitability, riskGrowthData] ∧
    (Quant.computeQuantAnalysis qlogZero snapNone).keyRisks.length = 2 ∧
    riskProfitability ≠ riskTrailing ∧ riskGrowthData ≠ riskTrailing := by
  refine ⟨rfl, rfl, ?_, ?_⟩ <;> decide

/-- C1 amended: for a snapshot in which every optional numeric field is
absent, the engine returns the neutral analysis with all six scores 50,
rating HOLD and conviction 35, and keyRisks is the two-element list of the
missing-profitability and missing-growth caveats (not a single generic
caveat). -/
theorem c1_all_absent_neutral (qlog : ℚ → ℚ) (s : MarketSnapshot ℚ)
    (h1 : s.price = none) (h2 : s.prevClose = none) (h3 : s.dayHigh = none)
    (h4 : s.dayLow = none) (h5 : s.fiftyTwoWeekHigh = none)
    (h6 : s.fiftyTwoWeekLow = none) (h7 : s.volume = none)
    (h8 : s.avgVolume3m = none) (h9 : s.change1dPct = none)
    (h10 : s.changeFrom52wLowPct = none) (h11 : s.changeFrom52wHighPct = none)
    (h12 : s.fiftyTwoWeekChangePct = none) (h13 : s.marketCap = none)
    (h14 : s.peRatio = none) (h15 : s.pegRatio = none)
    (h16 : s.priceToSales = none) (h17 : s.priceToBook = none)
    (h18 : s.profitMargin = none) (h19 : s.roe = none)
    (h20 : s.revenueGrowth = none) (h21 : s.epsGrowth = none)
    (h22 : s.beta = none) :
    (Quant.computeQuantAnalysis qlog s).toneScore = 50 ∧
    (Quant.computeQuantAnalysis qlog s).growthScore = 50 ∧
    (Quant.computeQuantAnalysis qlog s).profitabilityScore = 50 ∧
    (Quant.computeQuantAnalysis qlog s).valuationScore = 50 ∧
    (Quant.computeQuantAnalysis qlog s).balanceScore = 50 ∧
    (Quant.computeQuantAnalysis qlog s).healthScore = 50 ∧
    (Quant.computeQuantAnalysis qlog s).rating = Rating.HOLD ∧
    (Quant.computeQuantAnalysis qlog s).conviction = 35 ∧
    (Quant.computeQuantAnalysis qlog s).keyRisks =
      [riskProfitability, riskGrowthData] := by
  obtain ⟨tk, cn, price, prevClose, dayHigh, dayLow, ftwHigh, ftwLow, vol,
    avgVol, c1d, cLow, cHigh, c52, mcap, pe, peg, ps, pb, pm, roe, rg, eg,
    beta⟩ := s
  dsimp only at h1 h2 h3 h4 h5 h6 h7 h8 h9 h10 h11 h12 h13 h14 h15 h16 h17 h18 h19 h20 h21 h22
  subst_vars
  have hv : Quant.scoreValue
      ⟨tk, cn, none, none, none, none, none, none, none, none, none, none,
       none, none, none, none, none, none, none, none, none, none, none,
       none⟩ = 50 := rfl
  have hg : Quant.scoreGrowth
      ⟨tk, cn, none, none, none, none, none, none, none, none, none, none,
       none, none, none, none, none, none, none, none, none, none, none,
       none⟩ = 50 := rfl
  have hq : Quant.scoreQuality
      ⟨tk, cn, none, none, none, none, none, none, none, none, none, none,
       none, none, none, none, none, none, none, none, none, none, none,
       none⟩ = 50 := rfl
  have hm : Quant.scoreMomentum
      ⟨tk, cn, none, none, none, none, none, none, none, none, none, none,
       none, none, none, none, none, none, none, none, none, none, none,
       none⟩ = 50 := rfl
  have hr : Quant.scoreRisk qlog
      ⟨tk, cn, none, none, none, none, none, none, none, none, none, none,
       none, none, none, none, none, none, none, none, none, none, none,
       none⟩ = 50 := rfl
  have hbal : (Quant.computeQuantAnalysis qlog
      ⟨tk, cn, none, none, none, none, none, none, none, none, none, none,
       none, none, none, none, none, none, none, none, none, none, none,
       none⟩).balanceScore = 50 := by
    rw [Quant.cqa_balanceScore, hv, hq, hg, hm, hr]
    norm_num [Quant.mathRound]
  have hhea : (Quant.computeQuantAnalysis qlog
      ⟨tk, cn, none, none, none, none, none, none, none, none, none, none,
       none, none, none, none, none, none, none, none, none, none, none,
       none⟩).healthScore = 50 := by
    rw [Quant.cqa_healthScore, hv, hq, hg, hm, hr]
    norm_num [Quant.mathRound]
  refine ⟨?_, ?_, ?_, ?_, hbal, hhea, ?_, ?_, rfl⟩
  · rw [Quant.cqa_toneScore, hm]
  · rw [Quant.cqa_growthScore, hg]
  · rw [Quant.cqa_profitabilityScore, hq]
  · rw [Quant.cqa_valuationScore, hv]
  · rw [Quant.cqa_rating, hbal, hhea]
    norm_num [Quant.ratingOf]
  · rw [Quant.cqa_conviction, hhea]
    norm_num [Quant.clamp]

/-- C1 witness: the amended claim at the concrete all-absent snapshot. -/
theorem c1_all_absent_neutral_witness :
    (Quant.computeQuantAnalysis qlogZero snapNone).toneScore = 50 ∧
    (Quant.computeQuantAnalysis qlogZero snapNone).growthScore = 50 ∧
    (Quant.computeQuantAnalysis qlogZero snapNone).profitabilityScore = 50 ∧
    (Quant.computeQuantAnalysis qlogZero snapNone).valuationScore = 50 ∧
    (Quant.computeQuantAnalysis qlogZero snapNone).balanceScore = 50 ∧
    (Quant.computeQuantAnalysis qlogZero snapNone).healthScore = 50 ∧
    (Quant.computeQuantAnalysis qlogZero snapNone).rating = Rating.HOLD ∧
    (Quant.computeQuantAnalysis qlogZero snapNone).conviction = 35 ∧
    (Quant.computeQuantAnalysis qlogZero snapNone).keyRisks =
      [riskProfitability, riskGrowthData] :=
  c1_all_absent_neutral qlogZero snapNone rfl rfl rfl rfl rfl rfl rfl rfl
    rfl rfl rfl rfl rfl rfl rfl rfl rfl rfl rfl rfl rfl rfl

namespace JS

theorem avgScores_single_inf_band :
    avgScores [none, some (JSNum.num 95), none, none] = JSNum.num 95 := by
  have h : avgScores [none, some (JSNum.num 95), none, none] =
      JSNum.round (JSNum.div (JSNum.add (JSNum.num 0) (JSNum.num 95))
        (JSNum.num ((1 : ℕ) : ℚ))) := rfl
  rw [h]
  norm_num [JSNum.add, JSNum.div, JSNum.round]

theorem scoreValue_jsnapInf : scoreValue jsnapInf = JSNum.num 95 := by
  have h : scoreValue jsnapInf =
      avgScores [none, some (JSNum.num 95), none, none] := rfl
  rw [h, avgScores_single_inf_band]

end JS

/-- C2 counterexample: a snapshot whose priceToSales is the non-finite
double Infinity is NOT treated as if the field were absent: against the
otherwise identical all-absent snapshot the engine returns a different
analysis, because the infinite value saturates the price-to-sales band to
95 while the absent field leaves the neutral 50. -/
theorem c2_counterexample :
    jsnapInf = jsnapNone.setPriceToSales (some JSNum.inf) ∧
    jsnapNone.priceToSales = none ∧
    (JS.computeQuantAnalysis jlogNan jsnapInf).valuationScore = JSNum.num 95 ∧
    (JS.computeQuantAnalysis jlogNan jsnapNone).valuationScore = JSNum.num 50 ∧
    JS.computeQuantAnalysis jlogNan jsnapInf ≠
      JS.computeQuantAnalysis jlogNan jsnapNone := by
  have hInf : (JS.computeQuantAnalysis jlogNan jsnapInf).valuationScore =
      JSNum.num 95 := JS.scoreValue_jsnapInf
  have hNone : (JS.computeQuantAnalysis jlogNan jsnapNone).valuationScore =
      JSNum.num 50 := rfl
  refine ⟨rfl, rfl, hInf, hNone, ?_⟩
  intro h
  have h2 := congrArg MarketAnalysis.valuationScore h
  rw [hInf, hNone] at h2
  have h3 : (95 : ℚ) = 50 := JSNum.num.inj h2
  norm_num at h3

/-- C2 amended: replacing a non-finite peRatio (NaN, Infinity or
-Infinity) by absent leaves the analysis unchanged, because the P/E scorer
is the one place where the engine coerces through safeNum; the claim fails
for other fields (see the counterexample), where an infinite value
saturates its band instead of being dropped. -/
theorem c2_nonfinite_pe_as_absent (jlog : JSNum → JSNum)
    (s : MarketSnapshot JSNum) (v : JSNum)
    (hv : v = JSNum.nan ∨ v = JSNum.inf ∨ v = JSNum.ninf) :
    JS.computeQuantAnalysis jlog (s.setPeRatio (some v)) =
      JS.computeQuantAnalysis jlog (s.setPeRatio none) := by
  rcases hv with rfl | rfl | rfl <;> rfl

/-- C2 witness: the amended claim at the all-absent snapshot with an
Infinity P/E. -/
theorem c2_nonfinite_pe_as_absent_witness :
    JS.computeQuantAnalysis jlogNan (jsnapNone.setPeRatio (some JSNum.inf)) =
      JS.computeQuantAnalysis jlogNan (jsnapNone.setPeRatio none) :=
  c2_nonfinite_pe_as_absent jlogNan jsnapNone JSNum.inf (Or.inr (Or.inl rfl))
